import Mathlib

/-!
Shallow embedding of `src/foal/dynamic_programming/sequence_alignment.py`
and the parts of `src/foal/dynamic_programming/biological_data.py` it uses
(`BioSeq`, `ScoreCell`), together with theorems settling the frozen claims
about the aligners.

Modelling conventions:
- A `BioSeq` is its upper-cased character list (`bioData`).
- A `ScoreCell` keeps its score and the coordinates of its predecessor
  (the Python object keeps a live reference plus its own row/column; the
  row/column of a cell in the table always equal its indices, so backlinks
  are modelled as coordinates).
- Machine integers are `Int` (Python ints are unbounded).
- The Python score table is the function `cellG`/`cellL` from indices to
  cells, defined by the same recurrence the fill loop realises.
- Fallible Python code (`_store_max_score`, whose `<` on `ScoreCell`
  objects has no defining method and raises `TypeError`) is modelled in
  `Except String`.
-/

namespace Foal

/-- The four score parameters of both aligner constructors. -/
structure AlignParams where
  matchS : Int
  mismatchS : Int
  gapOpen : Int
  gapExtend : Int
deriving DecidableEq

/-- Module-level defaults: `MATCH = +2`, `MISMATCH = -1`, `GAP_OPEN = -2`,
`GAP_EXTEND = -1`. -/
def defaultParams : AlignParams := ⟨2, -1, -2, -1⟩

/-- ScoreCell: score plus backlink (coordinates of the predecessor cell,
`none` when `prev_cell is None`). -/
structure ScoreCell where
  score : Int
  prev : Option (Nat × Nat)
deriving DecidableEq

/-- BioSeq upper-cases the stored string at construction; the aligners only read
characters by index and the length. -/
def bioData (s : String) : List Char := s.toList.map Char.toUpper

/-- The gap-open test `_is_gap_open` (identical in `GlobalAlign` and
`LocalAlign`): the target is `(r, c)`, the candidate predecessor cell has
coordinates `(pr, pc)` and backlink `prevOpt`.  Returns `True` when the
candidate has no predecessor, otherwise tests
`diff_col_ptr + diff_row_ptr == 1 and diff_col_cur + diff_row_cur == 1`
on the signed coordinate differences. -/
def isGapOpen (r c pr pc : Nat) (prevOpt : Option (Nat × Nat)) : Bool :=
  match prevOpt with
  | none => true
  | some (ppr, ppc) =>
    (((pr : Int) - ppr) + ((pc : Int) - ppc) == 1) &&
    (((r : Int) - pr) + ((c : Int) - pc) == 1)

/-- Charge `gap_open_score` when `_is_gap_open` holds, else
`gap_extend_score`. -/
def gapCharge (P : AlignParams) (b : Bool) : Int :=
  if b then P.gapOpen else P.gapExtend

/-- Python `max(scores.items(), key=lambda x: x[1][0])[1]` over the
insertion-ordered dict `{top_left, top, left}`: scan left to right, replace
the running best only on a strictly greater score (first-found wins). -/
def pickBest {α : Type} (first : Int × α) (rest : List (Int × α)) : Int × α :=
  rest.foldl (fun best x => if x.1 > best.1 then x else best) first

/-- Interior scoring `_cal_score_non_zero_index` (identical in `GlobalAlign` and `LocalAlign`): the three candidate scores for target `(r, c)` with `r, c
≥ 1`, given the diagonal, top and left neighbour cells, then the
first-found-wins maximum in dict order `top_left, top, left`.  Returns the
chosen score and the coordinates of the chosen predecessor. -/
def calScoreNonZero (P : AlignParams) (A B : List Char)
    (diag top left : ScoreCell) (r c : Nat) : Int × Nat × Nat :=
  let scoreFromLeft := left.score + gapCharge P (isGapOpen r c r (c-1) left.prev)
  let scoreFromTop := top.score + gapCharge P (isGapOpen r c (r-1) c top.prev)
  let scoreFromTopLeft := diag.score +
    (if A.getD (r-1) ' ' == B.getD (c-1) ' ' then P.matchS else P.mismatchS)
  pickBest (scoreFromTopLeft, (r-1, c-1))
    [(scoreFromTop, (r-1, c)), (scoreFromLeft, (r, c-1))]

/-- Row 0 of the global score table: `GlobalAlign._cal_score_of_one_cell`
in the `row == 0` branches — cell `(0,0)` is score 0 with no predecessor,
cell `(0,c+1)` extends from the left neighbour with a gap charge. -/
def row0 (P : AlignParams) : Nat → ScoreCell
  | 0 => ⟨0, none⟩
  | c+1 =>
    let l := row0 P c
    ⟨l.score + gapCharge P (isGapOpen 0 (c+1) 0 c l.prev), some (0, c)⟩

/-- Row `r+1` of the global score table given row `r`:
`GlobalAlign._cal_score_of_one_cell` in the `col == 0` branch and
`_cal_score_non_zero_index` for interior cells. -/
def rowSucc (P : AlignParams) (A B : List Char) (r : Nat)
    (prevRow : Nat → ScoreCell) : Nat → ScoreCell
  | 0 =>
    let t := prevRow 0
    ⟨t.score + gapCharge P (isGapOpen (r+1) 0 r 0 t.prev), some (r, 0)⟩
  | c+1 =>
    let best := calScoreNonZero P A B (prevRow c) (prevRow (c+1))
      (rowSucc P A B r prevRow c) (r+1) (c+1)
    ⟨best.1, some best.2⟩

/-- The rows of the global score table, by the recurrence
`GlobalAlign._cal_score_table` realises. -/
def rowG (P : AlignParams) (A B : List Char) : Nat → Nat → ScoreCell
  | 0 => row0 P
  | r+1 => rowSucc P A B r (rowG P A B r)

/-- Cell `(r, c)` of the `GlobalAlign` score table. -/
def cellG (P : AlignParams) (A B : List Char) (r c : Nat) : ScoreCell :=
  rowG P A B r c

/-- Row `r+1` of the local score table: `LocalAlign._cal_score_of_one_cell`
— boundary cells are 0 with no predecessor, an interior score below 0 is
stored as 0 with predecessor `None`. -/
def rowLSucc (P : AlignParams) (A B : List Char) (r : Nat)
    (prevRow : Nat → ScoreCell) : Nat → ScoreCell
  | 0 => ⟨0, none⟩
  | c+1 =>
    let best := calScoreNonZero P A B (prevRow c) (prevRow (c+1))
      (rowLSucc P A B r prevRow c) (r+1) (c+1)
    if best.1 < 0 then ⟨0, none⟩ else ⟨best.1, some best.2⟩

/-- The rows of the `LocalAlign` score table. -/
def rowL (P : AlignParams) (A B : List Char) : Nat → Nat → ScoreCell
  | 0 => fun _ => ⟨0, none⟩
  | r+1 => rowLSucc P A B r (rowL P A B r)

/-- Cell `(r, c)` of the `LocalAlign` score table. -/
def cellL (P : AlignParams) (A B : List Char) (r c : Nat) : ScoreCell :=
  rowL P A B r c

/-- The loop of `GlobalAlign._trace_back`, from cell `(r, c)` following
backlinks, producing the two character lists in append order (current cell
first, as the Python lists are built before the final `reverse`).  `fuel`
bounds the walk; every backlink strictly decreases `r + c`, so fuel
`r + c` is always enough. -/
def traceAux (P : AlignParams) (A B : List Char) :
    Nat → Nat → Nat → List Char × List Char
  | 0, _, _ => ([], [])
  | fuel+1, r, c =>
    match (cellG P A B r c).prev with
    | none => ([], [])
    | some (pr, pc) =>
      let rest := traceAux P A B fuel pr pc
      if r == pr + 1 && c == pc + 1 then
        (A.getD (r-1) ' ' :: rest.1, B.getD (c-1) ' ' :: rest.2)
      else if r == pr + 1 && c == pc then
        (A.getD (r-1) ' ' :: rest.1, '-' :: rest.2)
      else if r == pr && c == pc + 1 then
        ('-' :: rest.1, B.getD (c-1) ' ' :: rest.2)
      else rest

/-- Result pair of `GlobalAlign.get_align_results()`: traceback from the bottom-right cell
`(len A, len B)`, lists reversed at the end; returns
`(align_left, align_top)`. -/
def getAlignResults (P : AlignParams) (A B : List Char) :
    List Char × List Char :=
  let rt := traceAux P A B (A.length + B.length) A.length B.length
  (rt.1.reverse, rt.2.reverse)

/-- The match-marker line of `display()`: `'|'` where the two aligned
characters at an index agree, `' '` otherwise (the Python loop runs over
the indices of `left_aling`; the two lists always have equal length). -/
def matchSigns (left top : List Char) : List Char :=
  List.zipWith (fun a b => if a == b then '|' else ' ') left top

/-- The three lines `GlobalAlign.display()` prints, in print order:
top alignment, match markers, left alignment. -/
def displayLines (P : AlignParams) (A B : List Char) :
    List Char × List Char × List Char :=
  let lt := getAlignResults P A B
  (lt.2, matchSigns lt.1 lt.2, lt.1)

/-- Python `<` between two `ScoreCell` objects: the class defines no
ordering methods (`__lt__`, `__gt__`, ...), so the comparison never
produces a result — at runtime it raises
`TypeError: unorderable types`. -/
def scoreCellLt (_a _b : ScoreCell) : Option Bool := none

/-- Python `max` over a list of `ScoreCell`: a one-element list is returned
without comparing; two or more elements need `<` between `ScoreCell`
objects, which raises. -/
def pyMaxCell : List ScoreCell → Except String ScoreCell
  | [] => .error "ValueError: max() arg is an empty sequence"
  | [x] => .ok x
  | _ :: _ :: _ => .error "TypeError: unorderable ScoreCell"

/-- Running-maximum update `LocalAlign._store_max_score`: append to an empty set; otherwise
evaluate `max(self._max_score_cell) < cur_cell`, which needs `<` on
`ScoreCell` and therefore raises. -/
def storeMaxScore (acc : List ScoreCell) (cur : ScoreCell) :
    Except String (List ScoreCell) :=
  match acc with
  | [] => .ok [cur]
  | _ :: _ => do
    let m ← pyMaxCell acc
    match scoreCellLt m cur with
    | none =>
      .error "TypeError: < not supported between instances of ScoreCell"
    | some true => .ok [cur]
    | some false => .ok (acc ++ [cur])

/-- Fill loop `LocalAlign._cal_score_table`: fill row-major, calling
`_store_max_score` on every freshly created cell. -/
def localFillMax (P : AlignParams) (A B : List Char) :
    Except String (List ScoreCell) :=
  ((List.range (A.length + 1)).flatMap
      (fun r => (List.range (B.length + 1)).map (fun c => (r, c)))).foldlM
    (fun acc rc => storeMaxScore acc (cellL P A B rc.1 rc.2)) []


/-- Python-level argument values a caller can pass to the aligner
constructors: a BioSeq instance, or values of other runtime types
(plain strings, ints, None).  Only the distinction whether the value is a
BioSeq instance matters to the constructor check. -/
inductive PyObj where
  | bio (data : List Char)
  | pyStr (s : List Char)
  | pyInt (n : Int)
  | pyNone
deriving DecidableEq

/-- Python `isinstance(x, BioSeq)`. -/
def isBioSeq : PyObj → Bool
  | .bio _ => true
  | _ => false

/-- Constructor validation performed by `GlobalAlign.__init__` and
`LocalAlign.__init__` (identical): `isinstance` checks on the two sequence
arguments only; the four score parameters are bound to attributes without
any inspection.  Returns the raised error, or `none` when construction
proceeds to the matrix fill. -/
def ctorCheck (seqLeft seqTop : PyObj)
    (_matchScore _mismatchScore _gapOpenScore _gapExtendScore : PyObj) :
    Option String :=
  if !(isBioSeq seqLeft) || !(isBioSeq seqTop) then
    some "TypeError: Object should be bd.BioSeq."
  else
    none


/-- The displacement sum from a cell at `(r, c)` to its predecessor, when
present: 2 for a diagonal backlink, 1 for a vertical or horizontal one.
This is the only feature of a backlink that `_is_gap_open` can observe
from a neighbouring cell. -/
def prevClass (cell : ScoreCell) (r c : Nat) : Option Int :=
  cell.prev.map (fun p => ((r : Int) - p.1) + ((c : Int) - p.2))

/-- Claim C4 as stated (following the spec wording, for comparison with
`isGapOpen` above): true when the candidate has no predecessor, or when
the step from the predecessor of the candidate into the candidate is a
unit step, the step from the candidate to the target is a unit step, and
the target step continues the gap in the same direction (same displacement
vector) as the step into the candidate. -/
def specGapOpen (r c pr pc : Nat) (prevOpt : Option (Nat × Nat)) : Bool :=
  match prevOpt with
  | none => true
  | some (ppr, ppc) =>
    (((pr : Int) - ppr).natAbs + ((pc : Int) - ppc).natAbs == 1) &&
    ((((r : Int) - pr).natAbs + ((c : Int) - pc).natAbs == 1) &&
     (((pr : Int) - ppr == (r : Int) - pr) &&
      ((pc : Int) - ppc == (c : Int) - pc)))

/-! ## Helper lemmas -/

theorem foldl_pick_mem {α : Type} (l : List (Int × α)) (b : Int × α) :
    l.foldl (fun best x => if x.1 > best.1 then x else best) b = b ∨
      l.foldl (fun best x => if x.1 > best.1 then x else best) b ∈ l := by
  induction l generalizing b with
  | nil => exact Or.inl rfl
  | cons a l ih =>
    simp only [List.foldl_cons]
    rcases ih (if a.1 > b.1 then a else b) with h | h
    · by_cases hab : a.1 > b.1
      · right
        rw [h, if_pos hab]
        exact List.mem_cons_self _ _
      · left
        rw [h, if_neg hab]
    · right
      exact List.mem_cons_of_mem _ h

theorem pickBest_mem {α : Type} (x : Int × α) (l : List (Int × α)) :
    pickBest x l = x ∨ pickBest x l ∈ l :=
  foldl_pick_mem l x

theorem pickBest_pair {α : Type} (a b c : Int) (x y z : α) :
    pickBest (a, x) [(b, y), (c, z)] =
      if c > max a b then (c, z) else if b > a then (b, y) else (a, x) := by
  simp only [pickBest, List.foldl_cons, List.foldl_nil]
  by_cases h1 : b > a
  · rw [max_eq_right (le_of_lt h1)]
    simp only [if_pos h1]
  · rw [max_eq_left (by omega)]
    simp only [if_neg h1]

theorem cellG_zero_zero (P : AlignParams) (A B : List Char) :
    cellG P A B 0 0 = ⟨0, none⟩ := rfl

theorem cellG_zero_succ (P : AlignParams) (A B : List Char) (c : Nat) :
    cellG P A B 0 (c+1) =
      ⟨(cellG P A B 0 c).score +
        gapCharge P (isGapOpen 0 (c+1) 0 c (cellG P A B 0 c).prev),
       some (0, c)⟩ := rfl

theorem cellG_succ_zero (P : AlignParams) (A B : List Char) (r : Nat) :
    cellG P A B (r+1) 0 =
      ⟨(cellG P A B r 0).score +
        gapCharge P (isGapOpen (r+1) 0 r 0 (cellG P A B r 0).prev),
       some (r, 0)⟩ := rfl

theorem cellG_succ_succ (P : AlignParams) (A B : List Char) (r c : Nat) :
    cellG P A B (r+1) (c+1) =
      ⟨(calScoreNonZero P A B (cellG P A B r c) (cellG P A B r (c+1))
          (cellG P A B (r+1) c) (r+1) (c+1)).1,
       some (calScoreNonZero P A B (cellG P A B r c) (cellG P A B r (c+1))
          (cellG P A B (r+1) c) (r+1) (c+1)).2⟩ := rfl

theorem cellL_zero (P : AlignParams) (A B : List Char) (c : Nat) :
    cellL P A B 0 c = ⟨0, none⟩ := rfl

theorem cellL_succ_zero (P : AlignParams) (A B : List Char) (r : Nat) :
    cellL P A B (r+1) 0 = ⟨0, none⟩ := rfl

theorem cellL_succ_succ (P : AlignParams) (A B : List Char) (r c : Nat) :
    cellL P A B (r+1) (c+1) =
      (if (calScoreNonZero P A B (cellL P A B r c) (cellL P A B r (c+1))
            (cellL P A B (r+1) c) (r+1) (c+1)).1 < 0 then ⟨0, none⟩
       else ⟨(calScoreNonZero P A B (cellL P A B r c) (cellL P A B r (c+1))
            (cellL P A B (r+1) c) (r+1) (c+1)).1,
          some (calScoreNonZero P A B (cellL P A B r c) (cellL P A B r (c+1))
            (cellL P A B (r+1) c) (r+1) (c+1)).2⟩) := rfl


/-! ## Claim theorems (part 1) -/

/-- C1 (code bug): constructing `LocalAlign` on the inputs of its own
docstring example eagerly runs the matrix fill, and `_store_max_score`
raises a `TypeError` at the second cell: `max(self._max_score_cell) <
cur_cell` compares two `ScoreCell` objects, and `ScoreCell` defines no
ordering methods.  The claim says the fill never raises; the code raises
for every input pair with at least one nonempty sequence. -/
theorem c1_local_fill_raises :
    localFillMax defaultParams (bioData "gattaga") (bioData "gcatgct") =
      .error "TypeError: < not supported between instances of ScoreCell" := by
  rfl

set_option maxRecDepth 10000 in
/-- C2 counterexample: the match-marker line `display()` computes for the
worked example is not the 7-character string `"| | | |"` — it is that
string followed by two spaces (one per trailing position where the two
alignments disagree). -/
theorem c2_counterexample :
    matchSigns (getAlignResults defaultParams (bioData "gattaga")
        (bioData "gcatgct")).1
      (getAlignResults defaultParams (bioData "gattaga")
        (bioData "gcatgct")).2 ≠ "| | | |".toList := by
  decide

set_option maxRecDepth 10000 in
/-- C2 amended: for `seqLeft = "gattaga"`, `seqTop = "gcatgct"` with the
default scores, the `GlobalAlign` traceback produces top alignment
`GCA-T-GCT` and left alignment `G-ATTAG-A`, and `display()` renders the
three lines top, match markers, left, where the marker line is
`"| | | |"` padded with two trailing spaces. -/
theorem c2_global_doctest :
    displayLines defaultParams (bioData "gattaga") (bioData "gcatgct") =
      ("GCA-T-GCT".toList, "| | | |  ".toList, "G-ATTAG-A".toList) := by
  decide

/-- C3 counterexample: for `seqLeft = BioSeq("-")` and `seqTop =
BioSeq("")` the left alignment is the single gap character, so deleting
every gap character does not reconstruct the left sequence. -/
theorem c3_counterexample :
    ((getAlignResults defaultParams (bioData "-") (bioData "")).1.filter
        (· != '-')) ≠ bioData "-" := by
  decide

/-- C4 counterexample: `_is_gap_open` does not test the direction of the
gap.  Target cell `(2,2)`, candidate cell `(1,2)` whose predecessor is
`(1,1)`: the step into the candidate is horizontal, the step from the
candidate to the target is vertical, yet the code returns `True` (the
spec predicate with the same-direction requirement returns `False`).
This configuration is realised, e.g., in the `GlobalAlign` table for
`seqLeft = "ac"`, `seqTop = "ab"` with `match_score = 5`. -/
theorem c4_counterexample :
    isGapOpen 2 2 1 2 (some (1, 1)) = true ∧
    specGapOpen 2 2 1 2 (some (1, 1)) = false ∧
    (cellG ⟨5, -1, -2, -1⟩ (bioData "ac") (bioData "ab") 1 2).prev =
      some (1, 1) := by
  refine ⟨rfl, rfl, by decide⟩

/-- C4 amended: `_is_gap_open` returns true iff the candidate cell has no
predecessor, or the displacement from the predecessor of the candidate to
the candidate has `Δrow + Δcol = 1` and the step from the candidate to
the target has `Δrow + Δcol = 1` — with no requirement that the two steps
point in the same direction; when it returns true the scorer charges
`gap_open_score`, otherwise `gap_extend_score`. -/
theorem c4_gap_open_amended (r c pr pc ppr ppc : Nat)
    (h1 : ppr ≤ pr) (h2 : pr ≤ r) (h3 : ppc ≤ pc) (h4 : pc ≤ c) :
    isGapOpen r c pr pc none = true ∧
    (isGapOpen r c pr pc (some (ppr, ppc)) = true ↔
      (pr - ppr) + (pc - ppc) = 1 ∧ (r - pr) + (c - pc) = 1) ∧
    (∀ P : AlignParams,
      gapCharge P true = P.gapOpen ∧ gapCharge P false = P.gapExtend) := by
  refine ⟨rfl, ?_, fun P => ⟨rfl, rfl⟩⟩
  simp only [isGapOpen, Bool.and_eq_true, beq_iff_eq]
  omega

/-- Witness for `c4_gap_open_amended` at the concrete configuration of the
counterexample. -/
theorem c4_gap_open_amended_witness :
    isGapOpen 2 2 1 2 none = true ∧
    (isGapOpen 2 2 1 2 (some (1, 1)) = true ↔
      (1 - 1) + (2 - 1) = 1 ∧ (2 - 1) + (2 - 2) = 1) ∧
    (∀ P : AlignParams,
      gapCharge P true = P.gapOpen ∧ gapCharge P false = P.gapExtend) :=
  c4_gap_open_amended 2 2 1 2 1 1 (by decide) (by decide) (by decide)
    (by decide)

/-- C6: every cell of the `LocalAlign` score table has score at least 0
(boundary cells are 0, and an interior score below 0 is stored as 0); the
`GlobalAlign` final cell, by contrast, is negative already for
`seqLeft = "a"`, `seqTop = ""` with the default scores. -/
theorem c6_local_floor_global_negative :
    (∀ (P : AlignParams) (A B : List Char) (r c : Nat),
      0 ≤ (cellL P A B r c).score) ∧
    (cellG defaultParams (bioData "a") (bioData "") 1 0).score < 0 := by
  constructor
  · intro P A B r c
    match r, c with
    | 0, c => exact le_refl 0
    | r+1, 0 => exact le_refl 0
    | r+1, c+1 =>
      rw [cellL_succ_succ]
      split_ifs with h
      · exact le_refl 0
      · exact le_of_not_lt h
  · decide

/-- C8 counterexample: with two valid BioSeq arguments and a plain string
passed as the gap-open score parameter, the constructor check raises
nothing — score parameters are never inspected at construction, so an
unusable score type does not fail fast as the claim requires. -/
theorem c8_counterexample :
    ctorCheck (.bio ['A']) (.bio ['C']) (.pyInt 2) (.pyInt (-1))
      (.pyStr ['x']) (.pyInt (-1)) = none := by
  decide

/-- C8 amended: the constructor check of both aligners raises its
`TypeError` (the error the spec names `InvalidInputError`) exactly when a
sequence argument is not a `BioSeq` instance, before any matrix work;
score parameters are not validated at construction. -/
theorem c8_ctor_validation (l t m mm go ge : PyObj) :
    ctorCheck l t m mm go ge = none ↔
      isBioSeq l = true ∧ isBioSeq t = true := by
  cases hl : isBioSeq l <;> cases ht : isBioSeq t <;>
    simp [ctorCheck, hl, ht]

/-- C9 (code bug): with exactly one empty sequence, `GlobalAlign` indeed
produces an all-gap side, but `LocalAlign` does not return the degenerate
single-cell result: its fill raises the `_store_max_score` `TypeError` as
soon as the matrix has a second cell. -/
theorem c9_empty_side :
    getAlignResults defaultParams (bioData "a") (bioData "") =
      (['A'], ['-']) ∧
    getAlignResults defaultParams (bioData "") (bioData "a") =
      (['-'], ['A']) ∧
    localFillMax defaultParams (bioData "") (bioData "a") =
      .error "TypeError: < not supported between instances of ScoreCell" ∧
    localFillMax defaultParams (bioData "a") (bioData "") =
      .error "TypeError: < not supported between instances of ScoreCell" :=
  ⟨rfl, rfl, rfl, rfl⟩


/-- C5: interior-cell selection (used by both aligners through
`calScoreNonZero`) is first-found-wins in the evaluation order diagonal,
top, left with a strict greater-than comparison: the diagonal candidate is
chosen whenever it is tied with or above both others, the top candidate
whenever it strictly beats the diagonal and is tied with or above the
left, and the left candidate only when it strictly beats both. -/
theorem c5_tie_break (P : AlignParams) (A B : List Char)
    (diag top left : ScoreCell) (r c : Nat) (sTL sT sL : Int)
    (hTL : sTL = diag.score +
      (if A.getD (r-1) ' ' == B.getD (c-1) ' ' then P.matchS
       else P.mismatchS))
    (hT : sT = top.score + gapCharge P (isGapOpen r c (r-1) c top.prev))
    (hL : sL = left.score + gapCharge P (isGapOpen r c r (c-1) left.prev)) :
    (sT ≤ sTL → sL ≤ sTL →
      calScoreNonZero P A B diag top left r c = (sTL, (r-1, c-1))) ∧
    (sTL < sT → sL ≤ sT →
      calScoreNonZero P A B diag top left r c = (sT, (r-1, c))) ∧
    (sTL < sL → sT < sL →
      calScoreNonZero P A B diag top left r c = (sL, (r, c-1))) := by
  subst hTL hT hL
  simp only [calScoreNonZero, pickBest_pair]
  refine ⟨fun h1 h2 => ?_, fun h1 h2 => ?_, fun h1 h2 => ?_⟩
  · rw [if_neg (by omega), if_neg (by omega)]
  · rw [if_neg (by omega), if_pos (by omega)]
  · rw [if_pos (by omega)]

/-- Witness for `c5_tie_break` at a concrete configuration (both
neighbours zero-score start cells, matching characters, default scores:
diagonal 2, top and left both -2). -/
theorem c5_tie_break_witness :
    ((-2 : Int) ≤ 2 → (-2 : Int) ≤ 2 →
      calScoreNonZero defaultParams (bioData "a") (bioData "a")
        ⟨0, none⟩ ⟨0, none⟩ ⟨0, none⟩ 1 1 = (2, (0, 0))) ∧
    ((2 : Int) < -2 → (-2 : Int) ≤ -2 →
      calScoreNonZero defaultParams (bioData "a") (bioData "a")
        ⟨0, none⟩ ⟨0, none⟩ ⟨0, none⟩ 1 1 = (-2, (0, 1))) ∧
    ((2 : Int) < -2 → (-2 : Int) < -2 →
      calScoreNonZero defaultParams (bioData "a") (bioData "a")
        ⟨0, none⟩ ⟨0, none⟩ ⟨0, none⟩ 1 1 = (-2, (1, 0))) :=
  c5_tie_break defaultParams (bioData "a") (bioData "a")
    ⟨0, none⟩ ⟨0, none⟩ ⟨0, none⟩ 1 1 2 (-2) (-2)
    (by decide) (by decide) (by decide)

theorem cellG_row_zero_closed (P : AlignParams) (A B : List Char) :
    ∀ c : Nat, cellG P A B 0 (c+1) =
      ⟨((c : Int) + 1) * P.gapOpen, some (0, c)⟩ := by
  intro c
  induction c with
  | zero =>
    rw [cellG_zero_succ, cellG_zero_zero]
    simp [isGapOpen, gapCharge]
  | succ k ih =>
    rw [cellG_zero_succ, ih]
    have hopen : isGapOpen 0 (k+1+1) 0 (k+1) (some (0, k)) = true := by
      simp only [isGapOpen]
      rw [Bool.and_eq_true, beq_iff_eq, beq_iff_eq]
      constructor <;> · push_cast; ring
    rw [hopen]
    simp only [gapCharge, if_pos]
    rw [ScoreCell.mk.injEq]
    constructor
    · push_cast; ring
    · rfl

theorem cellG_col_zero_closed (P : AlignParams) (A B : List Char) :
    ∀ r : Nat, cellG P A B (r+1) 0 =
      ⟨((r : Int) + 1) * P.gapOpen, some (r, 0)⟩ := by
  intro r
  induction r with
  | zero =>
    rw [cellG_succ_zero, cellG_zero_zero]
    simp [isGapOpen, gapCharge]
  | succ k ih =>
    rw [cellG_succ_zero, ih]
    have hopen : isGapOpen (k+1+1) 0 (k+1) 0 (some (k, 0)) = true := by
      simp only [isGapOpen]
      rw [Bool.and_eq_true, beq_iff_eq, beq_iff_eq]
      constructor <;> · push_cast; ring
    rw [hopen]
    simp only [gapCharge, if_pos]
    rw [ScoreCell.mk.injEq]
    constructor
    · push_cast; ring
    · rfl

/-- C10: every step along the boundary row and boundary column of the
`GlobalAlign` table is charged `gap_open_score`: cell `(0, c)` has score
`c * gapOpen` with predecessor `(0, c-1)`, and cell `(r, 0)` has score
`r * gapOpen` with predecessor `(r-1, 0)` — because `_is_gap_open` returns
true whenever the preceding step into the candidate cell was itself a
single (gap) step. -/
theorem c10_boundary_gap_open (P : AlignParams) (A B : List Char)
    (r c : Nat) (hc1 : 1 ≤ c) (hc2 : c ≤ B.length)
    (hr1 : 1 ≤ r) (hr2 : r ≤ A.length) :
    cellG P A B 0 c = ⟨(c : Int) * P.gapOpen, some (0, c-1)⟩ ∧
    cellG P A B r 0 = ⟨(r : Int) * P.gapOpen, some (r-1, 0)⟩ := by
  constructor
  · obtain ⟨k, rfl⟩ : ∃ k, c = k + 1 := ⟨c - 1, by omega⟩
    rw [cellG_row_zero_closed]
    rw [ScoreCell.mk.injEq]
    constructor
    · push_cast; ring
    · rfl
  · obtain ⟨k, rfl⟩ : ∃ k, r = k + 1 := ⟨r - 1, by omega⟩
    rw [cellG_col_zero_closed]
    rw [ScoreCell.mk.injEq]
    constructor
    · push_cast; ring
    · rfl

/-- Witness for `c10_boundary_gap_open` with both sequences of length one
and the default scores. -/
theorem c10_boundary_gap_open_witness :
    cellG defaultParams (bioData "a") (bioData "c") 0 1 =
      ⟨(1 : Int) * defaultParams.gapOpen, some (0, 0)⟩ ∧
    cellG defaultParams (bioData "a") (bioData "c") 1 0 =
      ⟨(1 : Int) * defaultParams.gapOpen, some (0, 0)⟩ :=
  c10_boundary_gap_open defaultParams (bioData "a") (bioData "c") 1 1
    (by decide) (by decide) (by decide) (by decide)


theorem getD_ne_gap (l : List Char) (n : Nat) (h : n < l.length)
    (hm : '-' ∉ l) : (l.getD n ' ' != '-') = true := by
  rw [List.getD_eq_getElem l ' ' h, bne_iff_ne]
  exact fun he => hm (he ▸ List.getElem_mem h)

theorem take_reverse_succ (l : List Char) (n : Nat) (h : n < l.length) :
    (l.take (n+1)).reverse = l.getD n ' ' :: (l.take n).reverse := by
  rw [List.take_succ, List.getElem?_eq_getElem h, List.getD_eq_getElem l ' ' h]
  simp

theorem calScoreNonZero_snd_mem (P : AlignParams) (A B : List Char)
    (d t l : ScoreCell) (r c : Nat) :
    (calScoreNonZero P A B d t l (r+1) (c+1)).2 = (r, c) ∨
    (calScoreNonZero P A B d t l (r+1) (c+1)).2 = (r, c+1) ∨
    (calScoreNonZero P A B d t l (r+1) (c+1)).2 = (r+1, c) := by
  simp only [calScoreNonZero, Nat.add_sub_cancel]
  rcases pickBest_mem
      (d.score + (if A.getD r ' ' == B.getD c ' ' then P.matchS
        else P.mismatchS), (r, c))
      [(t.score + gapCharge P (isGapOpen (r+1) (c+1) r (c+1) t.prev),
        (r, c+1)),
       (l.score + gapCharge P (isGapOpen (r+1) (c+1) (r+1) c l.prev),
        (r+1, c))] with h | h
  · left
    rw [h]
  · rcases List.mem_cons.1 h with h1 | h1
    · right; left
      rw [h1]
    · right; right
      rw [List.mem_singleton.1 h1]

theorem getElemD_ne_gap (l : List Char) (n : Nat) (h : n < l.length)
    (hm : '-' ∉ l) : ¬ l[n]?.getD ' ' = '-' := by
  rw [List.getElem?_eq_getElem h]
  simp only [Option.getD_some]
  exact fun he => hm (he ▸ List.getElem_mem h)

theorem traceAux_spec (P : AlignParams) (A B : List Char)
    (hA : '-' ∉ A) (hB : '-' ∉ B) :
    ∀ fuel r c, r + c ≤ fuel → r ≤ A.length → c ≤ B.length →
      ((traceAux P A B fuel r c).1.filter (· != '-') = (A.take r).reverse ∧
       (traceAux P A B fuel r c).2.filter (· != '-') = (B.take c).reverse ∧
       (traceAux P A B fuel r c).1.length = (traceAux P A B fuel r c).2.length) := by
  intro fuel
  induction fuel with
  | zero =>
    intro r c h hr hc
    have hr0 : r = 0 := by omega
    have hc0 : c = 0 := by omega
    subst hr0; subst hc0
    exact ⟨rfl, rfl, rfl⟩
  | succ f ih =>
    intro r c h hr hc
    match r, c with
    | 0, 0 =>
      exact ⟨rfl, rfl, rfl⟩
    | 0, c+1 =>
      have hc' : c < B.length := by omega
      have hprev : (cellG P A B 0 (c+1)).prev = some (0, c) := by
        rw [cellG_zero_succ]
      obtain ⟨ih1, ih2, ih3⟩ := ih 0 c (by omega) (by omega) (by omega)
      have hstep : traceAux P A B (f+1) 0 (c+1) =
          ('-' :: (traceAux P A B f 0 c).1,
           B.getD c ' ' :: (traceAux P A B f 0 c).2) := by
        simp only [traceAux, hprev]
        simp
      rw [hstep]
      refine ⟨?_, ?_, ?_⟩
      · simpa using ih1
      · simp [List.filter_cons, getD_ne_gap B c hc' hB, ih2,
          take_reverse_succ B c hc', getElemD_ne_gap B c hc' hB]
      · simpa using ih3
    | r+1, 0 =>
      have hr' : r < A.length := by omega
      have hprev : (cellG P A B (r+1) 0).prev = some (r, 0) := by
        rw [cellG_succ_zero]
      obtain ⟨ih1, ih2, ih3⟩ := ih r 0 (by omega) (by omega) (by omega)
      have hstep : traceAux P A B (f+1) (r+1) 0 =
          (A.getD r ' ' :: (traceAux P A B f r 0).1,
           '-' :: (traceAux P A B f r 0).2) := by
        simp only [traceAux, hprev]
        simp
      rw [hstep]
      refine ⟨?_, ?_, ?_⟩
      · simp [List.filter_cons, getD_ne_gap A r hr' hA, ih1,
          take_reverse_succ A r hr', getElemD_ne_gap A r hr' hA]
      · simpa using ih2
      · simpa using ih3
    | r+1, c+1 =>
      have hr' : r < A.length := by omega
      have hc' : c < B.length := by omega
      rcases calScoreNonZero_snd_mem P A B (cellG P A B r c)
          (cellG P A B r (c+1)) (cellG P A B (r+1) c) r c with hp | hp | hp
      · -- diagonal predecessor
        have hprev : (cellG P A B (r+1) (c+1)).prev = some (r, c) := by
          rw [cellG_succ_succ]
          exact congrArg some hp
        obtain ⟨ih1, ih2, ih3⟩ := ih r c (by omega) (by omega) (by omega)
        have hstep : traceAux P A B (f+1) (r+1) (c+1) =
            (A.getD r ' ' :: (traceAux P A B f r c).1,
             B.getD c ' ' :: (traceAux P A B f r c).2) := by
          simp only [traceAux, hprev]
          simp
        rw [hstep]
        refine ⟨?_, ?_, ?_⟩
        · simp [List.filter_cons, getD_ne_gap A r hr' hA, ih1,
            take_reverse_succ A r hr', getElemD_ne_gap A r hr' hA]
        · simp [List.filter_cons, getD_ne_gap B c hc' hB, ih2,
            take_reverse_succ B c hc', getElemD_ne_gap B c hc' hB]
        · simpa using ih3
      · -- top predecessor
        have hprev : (cellG P A B (r+1) (c+1)).prev = some (r, c+1) := by
          rw [cellG_succ_succ]
          exact congrArg some hp
        obtain ⟨ih1, ih2, ih3⟩ := ih r (c+1) (by omega) (by omega) (by omega)
        have hfalse : ((c+1 : Nat) == c+1+1) = false := by
          rw [beq_eq_false_iff_ne]
          omega
        have hstep : traceAux P A B (f+1) (r+1) (c+1) =
            (A.getD r ' ' :: (traceAux P A B f r (c+1)).1,
             '-' :: (traceAux P A B f r (c+1)).2) := by
          simp only [traceAux, hprev, hfalse]
          simp
        rw [hstep]
        refine ⟨?_, ?_, ?_⟩
        · simp [List.filter_cons, getD_ne_gap A r hr' hA, ih1,
            take_reverse_succ A r hr', getElemD_ne_gap A r hr' hA]
        · simpa using ih2
        · simpa using ih3
      · -- left predecessor
        have hprev : (cellG P A B (r+1) (c+1)).prev = some (r+1, c) := by
          rw [cellG_succ_succ]
          exact congrArg some hp
        obtain ⟨ih1, ih2, ih3⟩ := ih (r+1) c (by omega) (by omega) (by omega)
        have hfalse : ((r+1 : Nat) == r+1+1) = false := by
          rw [beq_eq_false_iff_ne]
          omega
        have hstep : traceAux P A B (f+1) (r+1) (c+1) =
            ('-' :: (traceAux P A B f (r+1) c).1,
             B.getD c ' ' :: (traceAux P A B f (r+1) c).2) := by
          simp only [traceAux, hprev, hfalse]
          simp
        rw [hstep]
        refine ⟨?_, ?_, ?_⟩
        · simpa using ih1
        · simp [List.filter_cons, getD_ne_gap B c hc' hB, ih2,
            take_reverse_succ B c hc', getElemD_ne_gap B c hc' hB]
        · simpa using ih3

/-- C3 amended: for every pair of gap-free sequences (no character of
either input is the gap character) the `GlobalAlign` result pair has equal
lengths, and deleting every gap character from the left (resp. top)
alignment reconstructs the left (resp. top) input exactly. -/
theorem c3_reconstruction (P : AlignParams) (A B : List Char)
    (hA : '-' ∉ A) (hB : '-' ∉ B) :
    (getAlignResults P A B).1.length = (getAlignResults P A B).2.length ∧
    (getAlignResults P A B).1.filter (· != '-') = A ∧
    (getAlignResults P A B).2.filter (· != '-') = B := by
  obtain ⟨h1, h2, h3⟩ := traceAux_spec P A B hA hB (A.length + B.length)
    A.length B.length le_rfl le_rfl le_rfl
  simp only [getAlignResults]
  refine ⟨?_, ?_, ?_⟩
  · simpa using h3
  · rw [List.filter_reverse, h1, List.take_length, List.reverse_reverse]
  · rw [List.filter_reverse, h2, List.take_length, List.reverse_reverse]

/-- Witness for `c3_reconstruction` on the gap-free pair `"ag"`, `"ga"`
with default scores. -/
theorem c3_reconstruction_witness :
    (getAlignResults defaultParams (bioData "ag") (bioData "ga")).1.length =
      (getAlignResults defaultParams (bioData "ag") (bioData "ga")).2.length ∧
    (getAlignResults defaultParams (bioData "ag") (bioData "ga")).1.filter
      (· != '-') = bioData "ag" ∧
    (getAlignResults defaultParams (bioData "ag") (bioData "ga")).2.filter
      (· != '-') = bioData "ga" :=
  c3_reconstruction defaultParams (bioData "ag") (bioData "ga")
    (by decide) (by decide)


theorem char_beq_comm (a b : Char) : (a == b) = (b == a) := by
  cases h : a == b with
  | true =>
    rw [beq_iff_eq] at h
    subst h
    rw [beq_self_eq_true]
  | false =>
    symm
    rw [beq_eq_false_iff_ne]
    have hne : a ≠ b := by simpa [beq_eq_false_iff_ne] using h
    exact fun hb => hne hb.symm

theorem isGapOpen_eq_class (r c pr pc : Nat) (cell : ScoreCell)
    (h : ((r : Int) - pr) + ((c : Int) - pc) = 1) :
    isGapOpen r c pr pc cell.prev =
      (match prevClass cell pr pc with
       | none => true
       | some k => k == 1) := by
  cases hp : cell.prev with
  | none => simp [isGapOpen, prevClass, hp]
  | some p =>
    obtain ⟨ppr, ppc⟩ := p
    simp [isGapOpen, prevClass, hp, h]

theorem calScoreNonZero_fst (P : AlignParams) (A B : List Char)
    (d t l : ScoreCell) (r c : Nat) :
    (calScoreNonZero P A B d t l (r+1) (c+1)).1 =
      max (max
        (d.score +
          (if A.getD r ' ' == B.getD c ' ' then P.matchS else P.mismatchS))
        (t.score + gapCharge P (isGapOpen (r+1) (c+1) r (c+1) t.prev)))
        (l.score + gapCharge P (isGapOpen (r+1) (c+1) (r+1) c l.prev)) := by
  simp only [calScoreNonZero, Nat.add_sub_cancel, pickBest_pair]
  split_ifs <;> simp <;> omega

theorem calScoreNonZero_class (P : AlignParams) (A B : List Char)
    (d t l : ScoreCell) (r c : Nat) :
    (((r : Int) + 1) - ((calScoreNonZero P A B d t l (r+1) (c+1)).2.1 : Int)) +
      (((c : Int) + 1) - ((calScoreNonZero P A B d t l (r+1) (c+1)).2.2 : Int)) =
      (if (l.score + gapCharge P (isGapOpen (r+1) (c+1) (r+1) c l.prev)) >
          max (d.score +
              (if A.getD r ' ' == B.getD c ' ' then P.matchS
               else P.mismatchS))
            (t.score + gapCharge P (isGapOpen (r+1) (c+1) r (c+1) t.prev))
       then (1 : Int)
       else if (t.score + gapCharge P (isGapOpen (r+1) (c+1) r (c+1) t.prev)) >
          (d.score +
            (if A.getD r ' ' == B.getD c ' ' then P.matchS
             else P.mismatchS))
       then (1 : Int) else 2) := by
  simp only [calScoreNonZero, Nat.add_sub_cancel, pickBest_pair]
  split_ifs <;> simp

theorem classIf_comm (a b c : Int) :
    (if c > max a b then (1 : Int) else if b > a then 1 else 2) =
    (if b > max a c then (1 : Int) else if c > a then 1 else 2) := by
  split_ifs <;> omega

theorem cellG_sym_aux (P : AlignParams) (A B : List Char) :
    ∀ n r c, r + c ≤ n →
      ((cellG P A B r c).score = (cellG P B A c r).score ∧
       prevClass (cellG P A B r c) r c = prevClass (cellG P B A c r) c r) := by
  intro n
  induction n with
  | zero =>
    intro r c h
    have hr : r = 0 := by omega
    have hc : c = 0 := by omega
    subst hr; subst hc
    exact ⟨rfl, rfl⟩
  | succ n ih =>
    intro r c h
    match r, c with
    | 0, 0 => exact ⟨rfl, rfl⟩
    | 0, c+1 =>
      obtain ⟨ihs, ihp⟩ := ih 0 c (by omega)
      constructor
      · rw [cellG_zero_succ, cellG_succ_zero]
        dsimp only
        rw [isGapOpen_eq_class 0 (c+1) 0 c (cellG P A B 0 c)
              (by push_cast; ring),
            isGapOpen_eq_class (c+1) 0 c 0 (cellG P B A c 0)
              (by push_cast; ring),
            ihs, ihp]
      · rw [cellG_zero_succ, cellG_succ_zero]
        simp [prevClass]
    | r+1, 0 =>
      obtain ⟨ihs, ihp⟩ := ih r 0 (by omega)
      constructor
      · rw [cellG_succ_zero, cellG_zero_succ]
        dsimp only
        rw [isGapOpen_eq_class (r+1) 0 r 0 (cellG P A B r 0)
              (by push_cast; ring),
            isGapOpen_eq_class 0 (r+1) 0 r (cellG P B A 0 r)
              (by push_cast; ring),
            ihs, ihp]
      · rw [cellG_succ_zero, cellG_zero_succ]
        simp [prevClass]
    | r+1, c+1 =>
      obtain ⟨ds, dp⟩ := ih r c (by omega)
      obtain ⟨ts, tp⟩ := ih r (c+1) (by omega)
      obtain ⟨ls, lp⟩ := ih (r+1) c (by omega)
      have hchar : (A.getD r ' ' == B.getD c ' ') =
          (B.getD c ' ' == A.getD r ' ') := char_beq_comm _ _
      have hTL : (cellG P A B r c).score +
            (if A.getD r ' ' == B.getD c ' ' then P.matchS
             else P.mismatchS) =
          (cellG P B A c r).score +
            (if B.getD c ' ' == A.getD r ' ' then P.matchS
             else P.mismatchS) := by
        rw [ds, hchar]
      have hT : (cellG P A B r (c+1)).score +
            gapCharge P (isGapOpen (r+1) (c+1) r (c+1)
              (cellG P A B r (c+1)).prev) =
          (cellG P B A (c+1) r).score +
            gapCharge P (isGapOpen (c+1) (r+1) (c+1) r
              (cellG P B A (c+1) r).prev) := by
        rw [isGapOpen_eq_class (r+1) (c+1) r (c+1) (cellG P A B r (c+1))
              (by push_cast; ring),
            isGapOpen_eq_class (c+1) (r+1) (c+1) r (cellG P B A (c+1) r)
              (by push_cast; ring),
            ts, tp]
      have hL : (cellG P A B (r+1) c).score +
            gapCharge P (isGapOpen (r+1) (c+1) (r+1) c
              (cellG P A B (r+1) c).prev) =
          (cellG P B A c (r+1)).score +
            gapCharge P (isGapOpen (c+1) (r+1) c (r+1)
              (cellG P B A c (r+1)).prev) := by
        rw [isGapOpen_eq_class (r+1) (c+1) (r+1) c (cellG P A B (r+1) c)
              (by push_cast; ring),
            isGapOpen_eq_class (c+1) (r+1) c (r+1) (cellG P B A c (r+1))
              (by push_cast; ring),
            ls, lp]
      constructor
      · show (calScoreNonZero P A B (cellG P A B r c) (cellG P A B r (c+1))
            (cellG P A B (r+1) c) (r+1) (c+1)).1 =
          (calScoreNonZero P B A (cellG P B A c r) (cellG P B A c (r+1))
            (cellG P B A (c+1) r) (c+1) (r+1)).1
        rw [calScoreNonZero_fst, calScoreNonZero_fst, hTL, hT, hL]
        omega
      · have e1 : prevClass (cellG P A B (r+1) (c+1)) (r+1) (c+1) =
            some ((((r+1 : Nat) : Int) -
                ((calScoreNonZero P A B (cellG P A B r c)
                  (cellG P A B r (c+1)) (cellG P A B (r+1) c)
                  (r+1) (c+1)).2.1 : Int)) +
              (((c+1 : Nat) : Int) -
                ((calScoreNonZero P A B (cellG P A B r c)
                  (cellG P A B r (c+1)) (cellG P A B (r+1) c)
                  (r+1) (c+1)).2.2 : Int))) := by
          rw [cellG_succ_succ]
          rfl
        have e2 : prevClass (cellG P B A (c+1) (r+1)) (c+1) (r+1) =
            some ((((c+1 : Nat) : Int) -
                ((calScoreNonZero P B A (cellG P B A c r)
                  (cellG P B A c (r+1)) (cellG P B A (c+1) r)
                  (c+1) (r+1)).2.1 : Int)) +
              (((r+1 : Nat) : Int) -
                ((calScoreNonZero P B A (cellG P B A c r)
                  (cellG P B A c (r+1)) (cellG P B A (c+1) r)
                  (c+1) (r+1)).2.2 : Int))) := by
          rw [cellG_succ_succ]
          rfl
        rw [e1, e2]
        push_cast
        rw [calScoreNonZero_class, calScoreNonZero_class, hTL, hT, hL]
        exact congrArg some (classIf_comm _ _ _)

/-- C7 amended: the score of the final cell of the `GlobalAlign` table is
symmetric under swapping the two sequences; the aligned strings, however,
need not swap sides (ties between the top and left predecessors are broken
differently in the transposed run). -/
theorem c7_score_symmetry (P : AlignParams) (A B : List Char) :
    (cellG P A B A.length B.length).score =
      (cellG P B A B.length A.length).score :=
  (cellG_sym_aux P A B (A.length + B.length) A.length B.length le_rfl).1

/-- C7 counterexample: for `A = "ab"`, `B = "ba"` with the default scores
the final scores agree, but the aligned strings do not swap sides: the
left alignment of `(A, B)` differs from the top alignment of `(B, A)`. -/
theorem c7_counterexample :
    (getAlignResults defaultParams (bioData "ab") (bioData "ba")).1 ≠
      (getAlignResults defaultParams (bioData "ba") (bioData "ab")).2 := by
  decide

end Foal
